import Mathlib

/-!
Verification development for the gpkit-models commercial aircraft sizing
repository.  The two source files are embedded shallowly:

* `Commercial Sizing/Commerical_Flight_Profile.py` — the segment-count
  constants, the index-list construction (`iclimb1`, `iclimb2`, `icruise2`,
  `izbre`), and the four constraint groups (`CommericalMissionConstraints`,
  `Climb1`, `Climb2`, `Cruise2`) linked by `CommercialAircraft`.
  Each gpkit constraint group becomes a predicate on a record of the
  mission's decision variables (real-valued; gpkit GP/SP decision variables
  are strictly positive, captured by a separate positivity predicate).
  Fixed-value `Variable`s (e.g. `g`, `ReqRng`, `thrust`) become real
  constants with the numeric value the source declares.

* `1682/solar_hale/plotting.py` — `poor_mans_contour`'s effect on the
  model's substitution dictionary (the plotting side effects and the
  external solver do not touch `model.substitutions` and are omitted).

Definitions come first, followed by all theorems.
-/

namespace GPM

/-! ## Segment counts (module-level constants, source lines 22-43) -/

def Ntakeoff : ℕ := 0
def Nclimb1 : ℕ := 3
def Ntrans : ℕ := 0
def Nclimb2 : ℕ := 3
def Ncruise1 : ℕ := 0
def Ncruiseclimb : ℕ := 0
def Ncruise2 : ℕ := 3
def Ndecent : ℕ := 0
def Nlanding : ℕ := 0
def Nresclimb : ℕ := 0
def Nresdecent : ℕ := 0
def Nreslanding : ℕ := 0
def Nreshold : ℕ := 0

def Nclimb : ℕ := Nclimb1 + Nclimb2 + Ncruiseclimb
def Ncruise : ℕ := Ncruise1 + Ncruise2
def Nres : ℕ := Nresclimb + Nresdecent + Nreslanding + Nreshold
def Nseg : ℕ := Nclimb + Ncruise + Nres + Ntakeoff + Ntrans + Ndecent + Nlanding

/-! ## Index-list construction (source lines 48-52)

The source builds the per-phase index lists with
`map(int, np.linspace(start, stop, num))`, at every call site with
`stop = start + num - 1`, in which case `np.linspace` returns exactly the
`num` consecutive integers `start, start+1, ..., stop` (the step
`(stop-start)/(num-1)` is exactly `1.0`, so `int` truncation is the
identity).  `np.linspace` raises `ValueError` when `num` is negative,
modelled by `none`; Python's `lst[len(lst)-1]` raises `IndexError` on an
empty list, modelled by `List.getLast?`.
-/

/-- The `n` consecutive integers starting at `a`. -/
def consecInts (a : ℤ) (n : ℕ) : List ℤ := (List.range n).map fun i : ℕ => a + (i : ℤ)

/-- Models `map(int, np.linspace(start, start + num - 1, num))`:
`none` (ValueError) when `num < 0`, otherwise the `num` consecutive
integers from `start`. -/
def linspaceInts (start num : ℤ) : Option (List ℤ) :=
  if num < 0 then none else some (consecInts start num.toNat)

/-- Models the Python expression `lst[len(lst)-1]`: the last element, or an
`IndexError` (`none`) when `lst` is empty. -/
def pyLast (l : List ℤ) : Option ℤ := l.getLast?

/-- The index-list construction of source lines 48-52, as a function of the
three active segment counts (`Nclimb1`, `Nclimb2`, `Ncruise2`; all other
phase counts are zero).  Returns `(iclimb1, iclimb2, icruise2, izbre)`,
or `none` when the Python code would raise before the lists exist. -/
def buildIndices (nclimb1 nclimb2 ncruise2 : ℤ) :
    Option (List ℤ × List ℤ × List ℤ × List ℤ) := do
  let ic1 ← linspaceInts 0 nclimb1
  let l1 ← pyLast ic1
  let ic2 ← linspaceInts (l1 + 1) nclimb2
  let l2 ← pyLast ic2
  let icr2 ← linspaceInts (l2 + 1) ncruise2
  let iz ← linspaceInts 0 ncruise2
  pure (ic1, ic2, icr2, iz)

/-- The concrete index list used by the constraint groups (the counts are
all hard-coded to 3 in the source): `iclimb1 = [0,1,2]`. -/
def iclimb1 : List ℕ := List.range Nclimb1

/-- Concrete `iclimb2 = [3,4,5]`. -/
def iclimb2 : List ℕ := (List.range Nclimb2).map fun i => Nclimb1 + i

/-- Concrete `icruise2 = [6,7,8]`. -/
def icruise2 : List ℕ := (List.range Ncruise2).map fun i => Nclimb1 + Nclimb2 + i

/-- Concrete `izbre = [0,1,2]`. -/
def izbre : List ℕ := List.range Ncruise2

/-! ## The substitution dictionary of `poor_mans_contour`
(1682/solar_hale/plotting.py)

Only the function's effect on `model.substitutions` is relevant: lines
10-11 read the current entries for the two sweep variables (a missing key
would raise `KeyError`), line 14 installs the `("sweep", xsweep)` pair for
the x variable, the loop at lines 21-27 overwrites the z variable once per
sweep value (the `model.solve` call and all plotting calls read but never
write `model.substitutions`), and lines 30-31 write the two saved values
back.  A substitution dictionary is modelled as a partial map from
variable names to values.
-/

/-- A value stored in `model.substitutions`: either a fixed scalar or a
`("sweep", values)` pair. -/
inductive SubVal where
  | scalar : ℚ → SubVal
  | sweepSeq : List ℚ → SubVal
deriving DecidableEq

/-- Python's `d.update({key: v})` on a dictionary `d`. -/
def dictUpdate (d : String → Option SubVal) (key : String) (v : SubVal) :
    String → Option SubVal :=
  fun k => if k = key then some v else d k

/-- The effect of `poor_mans_contour(model, xvarname, xsweep, zvarname,
zsweep, ...)` on `model.substitutions`: `none` models the `KeyError` raised
at line 10 or 11 when a sweep variable has no current substitution. -/
def poor_mans_contour (subs : String → Option SubVal) (xvarname : String)
    (xsweep : List ℚ) (zvarname : String) (zsweep : List ℚ) :
    Option (String → Option SubVal) :=
  match subs xvarname, subs zvarname with
  | some x_old, some z_old =>
    let s1 := dictUpdate subs xvarname (SubVal.sweepSeq xsweep)
    let s2 := zsweep.foldl (fun s val => dictUpdate s zvarname (SubVal.scalar val)) s1
    let s3 := dictUpdate s2 xvarname x_old
    let s4 := dictUpdate s3 zvarname z_old
    some s4
  | _, _ => none

/-! ## Physical constants and fixed-value variables (source lines 57-121)

Each gpkit `Variable` declared with a value is a fixed substitution; it
becomes a real constant carrying the numeric value the source declares (in
the unit the source names).  Constraints are embedded as relations between
the declared quantities; gpkit's unit bookkeeping (e.g. `hft == h`
converting feet to meters) is the solver front end's concern and equates
the underlying physical quantities, so such constraints are embedded as
plain equalities of the corresponding record fields.
-/

noncomputable section

def g : ℝ := 9.81
def gamma : ℝ := 1.4
def R : ℝ := 287

def ReqRng : ℝ := 3000
def LDmax : ℝ := 15
def Cd0 : ℝ := 0.025
def K : ℝ := 0.9
def S : ℝ := 124.58
def Vstall : ℝ := 120
def c1 : ℝ := 2
def thrust : ℝ := 87000
def alt10k : ℝ := 10000
def alt1k : ℝ := 1500
def climbspeed : ℝ := 250

/-- gpkit.tools.te_exp_minus1: the `nterm`-term Taylor expansion of
`exp(x) - 1`, i.e. `x + x^2/2! + ... + x^nterm/nterm!`. -/
def te_exp_minus1 (x : ℝ) (nterm : ℕ) : ℝ :=
  ∑ i ∈ Finset.range nterm, x ^ (i + 1) / (Nat.factorial (i + 1))

/-! ## The mission's decision variables (source lines 62-115)

One record field per module-level `VectorVariable`/free `Variable`; vector
variables are functions on segment indices (the declared lengths — `Nseg`,
`Nclimb`, `Ncruise2 + Ncruise1` — bound the indices at which any constraint
or the positivity predicate reads them). -/

structure MissionVars where
  a : ℕ → ℝ
  rho : ℕ → ℝ
  mu : ℕ → ℝ
  T : ℕ → ℝ
  hft : ℕ → ℝ
  dhft : ℕ → ℝ
  h : ℕ → ℝ
  tmin : ℕ → ℝ
  thours : ℕ → ℝ
  RngClimb : ℕ → ℝ
  RngCruise : ℕ → ℝ
  ReqRngCruise : ℝ
  W_e : ℝ
  W_start : ℕ → ℝ
  W_fuel : ℕ → ℝ
  W_ftotal : ℝ
  W_end : ℕ → ℝ
  W_payload : ℝ
  W_total : ℝ
  LD : ℕ → ℝ
  V : ℕ → ℝ
  M : ℕ → ℝ
  RC : ℕ → ℝ
  theta : ℕ → ℝ
  z_bre : ℕ → ℝ
  TSFC : ℕ → ℝ

/-- gpkit GP/SP decision variables range over the strictly positive reals;
this is the implicit domain of every declared quantity. -/
def posVars (s : MissionVars) : Prop :=
  (∀ i < Nseg, 0 < s.a i) ∧ (∀ i < Nseg, 0 < s.rho i) ∧
  (∀ i < Nseg, 0 < s.mu i) ∧ (∀ i < Nseg, 0 < s.T i) ∧
  (∀ i < Nseg, 0 < s.hft i) ∧ (∀ i < Nclimb, 0 < s.dhft i) ∧
  (∀ i < Nseg, 0 < s.h i) ∧ (∀ i < Nseg, 0 < s.tmin i) ∧
  (∀ i < Nseg, 0 < s.thours i) ∧ (∀ i < Nclimb, 0 < s.RngClimb i) ∧
  (∀ i < Ncruise2 + Ncruise1, 0 < s.RngCruise i) ∧
  0 < s.ReqRngCruise ∧ 0 < s.W_e ∧
  (∀ i < Nseg, 0 < s.W_start i) ∧ (∀ i < Nseg, 0 < s.W_fuel i) ∧
  0 < s.W_ftotal ∧ (∀ i < Nseg, 0 < s.W_end i) ∧
  0 < s.W_payload ∧ 0 < s.W_total ∧
  (∀ i < Nseg, 0 < s.LD i) ∧ (∀ i < Nseg, 0 < s.V i) ∧
  (∀ i < Nseg, 0 < s.M i) ∧ (∀ i < Nseg, 0 < s.RC i) ∧
  (∀ i < Nseg, 0 < s.theta i) ∧ (∀ i < Nseg, 0 < s.z_bre i) ∧
  (∀ i < Nseg, 0 < s.TSFC i)

/-! ## Constraint groups -/

/-- The `CommericalMissionConstraints` group (source lines 123-172), one
conjunct per constraint in source order.  `TCS` wraps an inequality but
does not change its relation, so it is transparent here; the
`W_start[i] == W_end[i-1]` loop (lines 164-167) is an exact equality, not
wrapped in `TCS`. -/
def commericalMissionConstraints (s : MissionVars) : Prop :=
  (∀ i < Nseg, s.a i = Real.sqrt (gamma * R * s.T i)) ∧
  (∀ i < Nseg, s.hft i = s.h i) ∧
  (∀ i < Nseg, s.tmin i = s.thours i) ∧
  s.W_e + s.W_payload + s.W_ftotal ≤ s.W_total ∧
  s.W_start 0 = s.W_total ∧
  s.W_e + s.W_payload ≤ s.W_end (Nseg - 1) ∧
  s.W_ftotal ≥ ∑ i ∈ Finset.range Nseg, s.W_fuel i ∧
  s.hft (Ntakeoff + Nclimb1 - 1) = alt10k ∧
  (∑ i ∈ Finset.range Nclimb, s.RngClimb i)
    + (∑ i ∈ Finset.range (Ncruise2 + Ncruise1), s.RngCruise i) ≥ ReqRng ∧
  s.ReqRngCruise ≥ ∑ i ∈ Finset.range (Ncruise2 + Ncruise1), s.RngCruise i ∧
  (∀ k ∈ icruise2, s.hft k = s.hft (Nclimb - 1)) ∧
  (∀ i, 1 ≤ i → i < Nseg → s.W_start i = s.W_end (i - 1)) ∧
  (∀ i < Nseg, s.W_start i ≥ s.W_end i + s.W_fuel i)

/-- The `Climb1` group (source lines 177-220), one conjunct per constraint
in source order; the altitude-chain loop (lines 211-219) runs over all
`Nclimb` climb segments, anchoring segment 0 at 1500 ft. -/
def climb1Constraints (s : MissionVars) : Prop :=
  (∀ i ∈ iclimb1, s.V i ≤ climbspeed) ∧
  (∀ i ∈ iclimb1, s.V i ≥ Vstall) ∧
  (∀ i ∈ iclimb1, s.RC i + 0.5 * (s.V i) ^ 3 * s.rho i * S / s.W_start i * Cd0
    + s.W_start i / S * 2 * K / s.rho i / s.V i ≤ s.V i * thrust / s.W_start i) ∧
  (∀ i ∈ iclimb1, s.theta i * s.V i = s.RC i) ∧
  (∀ i ∈ iclimb1, s.dhft i = s.tmin i * s.RC i) ∧
  (∀ i ∈ iclimb1,
    s.RngClimb i + 0.5 * s.thours i * s.V i * (s.theta i) ^ 2
      ≤ s.thours i * s.V i) ∧
  (∀ i ∈ iclimb1, s.W_fuel i = g * s.TSFC i * s.thours i * thrust) ∧
  s.hft 0 ≤ 1500 + s.dhft 0 ∧
  (∀ i, 1 ≤ i → i < Nclimb → s.hft i ≤ s.hft (i - 1) + s.dhft i)

/-- The `Climb2` group (source lines 226-258), one conjunct per constraint
in source order. -/
def climb2Constraints (s : MissionVars) : Prop :=
  (∀ i ∈ iclimb2, s.V i ≤ 500) ∧
  (∀ i ∈ iclimb2, s.V i ≥ Vstall) ∧
  (∀ i ∈ iclimb2, s.RC i + 0.5 * (s.V i) ^ 3 * s.rho i * S / s.W_start i * Cd0
    + s.W_start i / S * 2 * K / s.rho i / s.V i ≤ s.V i * thrust / s.W_start i) ∧
  (∀ i ∈ iclimb2, s.theta i * s.V i = s.RC i) ∧
  (∀ i ∈ iclimb2, s.dhft i = s.tmin i * s.RC i) ∧
  (∀ i ∈ iclimb2,
    s.RngClimb i + 0.5 * s.thours i * s.V i * (s.theta i) ^ 2
      ≤ s.thours i * s.V i) ∧
  (∀ i ∈ iclimb2, s.W_fuel i = g * s.TSFC i * s.thours i * thrust)

/-- The `Cruise2` group (source lines 268-312), one conjunct per constraint
in source order.  The vectorized constraints pair position `k` of the
fancy-indexed vectors: `izbre[k] = k` and
`icruise2[k] = Nclimb1 + Nclimb2 + k` for `k < Ncruise2`, so e.g.
`W_fuel[icruise2]/W_end[icruise2] >= te_exp_minus1(z_bre[izbre], nterm=3)`
relates global cruise slot `Nclimb1 + Nclimb2 + k` with Breguet slot `k`.
The staged range loop (lines 294-297) runs `i` from `min(izbre) = 0` to
`max(izbre) = Ncruise2 - 1`. -/
def cruise2Constraints (s : MissionVars) : Prop :=
  (∀ k ∈ icruise2, s.hft k = 35000) ∧
  (∀ k < Ncruise2, s.W_fuel (Nclimb1 + Nclimb2 + k) / s.W_end (Nclimb1 + Nclimb2 + k)
    ≥ te_exp_minus1 (s.z_bre k) 3) ∧
  (∀ k < Ncruise2, s.RngCruise k
    ≤ s.z_bre k * s.LD (Nclimb1 + Nclimb2 + k) * s.V (Nclimb1 + Nclimb2 + k)
      / (s.TSFC (Nclimb1 + Nclimb2 + k) * g)) ∧
  (∀ k < Ncruise2,
    s.thours (Nclimb1 + Nclimb2 + k) * s.V (Nclimb1 + Nclimb2 + k) = s.RngCruise k) ∧
  (∀ i < Ncruise2, s.RngCruise i ≥ ((i : ℝ) + 1) * s.ReqRngCruise / (Nseg : ℝ)) ∧
  (∀ k ∈ icruise2, s.TSFC k = 1.4) ∧
  (∀ k ∈ icruise2, s.LD k = 10) ∧
  (∀ k ∈ icruise2, s.V k = 420) ∧
  (∀ k ∈ iclimb2, s.TSFC k = c1) ∧
  (∀ k ∈ iclimb2, s.rho k = 1.225) ∧
  (∀ k ∈ iclimb1, s.TSFC k = c1) ∧
  (∀ k ∈ iclimb1, s.rho k = 1.225) ∧
  s.W_e = 40000 ∧
  s.W_payload = 400000 ∧
  (∀ i < Nseg, s.T i = 273)

/-- The `LinkedConstraintSet` of `CommercialAircraft` (source lines
320-335): the union of the four groups' constraints. -/
def linkedConstraints (s : MissionVars) : Prop :=
  commericalMissionConstraints s ∧ climb1Constraints s ∧
  climb2Constraints s ∧ cruise2Constraints s

/-- A feasible point of the linked mission model: positive decision
variables satisfying every group's constraints. -/
def feasible (s : MissionVars) : Prop := posVars s ∧ linkedConstraints s

/-! ## Concrete assignments used as evaluation points

Assignment `s0` satisfies the mission-wide and cruise groups (with every
decision variable positive); `s1` satisfies both climb groups.  The fields
no assumed constraint touches are set to convenient positive values. -/

/-- A positive assignment satisfying `CommericalMissionConstraints` and
`Cruise2`.  Weights walk the chain `W_start[i] = W_end[i-1]` backwards from
`W_end[8] = W_e + W_payload = 440000` with cruise fuel
`W_fuel = 2 * W_end` per cruise segment and one unit of fuel per climb
segment; cruise ranges `100, 200, 300` against `ReqRngCruise = 600`. -/
def s0 : MissionVars where
  a := fun _ => Real.sqrt (gamma * R * 273)
  rho := fun _ => 1.225
  mu := fun _ => 1
  T := fun _ => 273
  hft := fun i => if i < 3 then 10000 else 35000
  dhft := fun _ => 1
  h := fun i => if i < 3 then 10000 else 35000
  tmin := fun i => if i < 6 then 1
    else if i = 6 then 5 / 21 else if i = 7 then 10 / 21 else 5 / 7
  thours := fun i => if i < 6 then 1
    else if i = 6 then 5 / 21 else if i = 7 then 10 / 21 else 5 / 7
  RngClimb := fun _ => 400
  RngCruise := fun i => if i = 0 then 100 else if i = 1 then 200 else 300
  ReqRngCruise := 600
  W_e := 40000
  W_start := fun i => if i = 0 then 11880006 else if i = 1 then 11880005
    else if i = 2 then 11880004 else if i = 3 then 11880003
    else if i = 4 then 11880002 else if i = 5 then 11880001
    else if i = 6 then 11880000 else if i = 7 then 3960000 else 1320000
  W_fuel := fun i => if i < 6 then 1
    else if i = 6 then 7920000 else if i = 7 then 2640000 else 880000
  W_ftotal := 11440006
  W_end := fun i => if i = 0 then 11880005 else if i = 1 then 11880004
    else if i = 2 then 11880003 else if i = 3 then 11880002
    else if i = 4 then 11880001 else if i = 5 then 11880000
    else if i = 6 then 3960000 else if i = 7 then 1320000 else 440000
  W_payload := 400000
  W_total := 11880006
  LD := fun _ => 10
  V := fun _ => 420
  M := fun _ => 1
  RC := fun _ => 1
  theta := fun _ => 1
  z_bre := fun _ => 1
  TSFC := fun i => if i < 6 then 2 else 1.4

/-- A positive assignment satisfying `Climb1` and `Climb2`: airspeed 200
within both speed windows, unit weight so the available specific excess
power dwarfs the drag terms, climb angle `1/200` matching `RC = 1`. -/
def s1 : MissionVars where
  a := fun _ => 1
  rho := fun _ => 1
  mu := fun _ => 1
  T := fun _ => 1
  hft := fun _ => 1
  dhft := fun _ => 1
  h := fun _ => 1
  tmin := fun _ => 1
  thours := fun _ => 1
  RngClimb := fun _ => 100
  RngCruise := fun _ => 1
  ReqRngCruise := 1
  W_e := 1
  W_start := fun _ => 1
  W_fuel := fun _ => 1706940
  W_ftotal := 1
  W_end := fun _ => 1
  W_payload := 1
  W_total := 1
  LD := fun _ => 1
  V := fun _ => 200
  M := fun _ => 1
  RC := fun _ => 1
  theta := fun _ => 1 / 200
  z_bre := fun _ => 1
  TSFC := fun _ => 2

end

/-! ## Theorems -/

/-! ### Helper lemmas -/

theorem consecInts_length (a : ℤ) (n : ℕ) : (consecInts a n).length = n := by
  simp [consecInts]

theorem consecInts_append (a : ℤ) (m n : ℕ) :
    consecInts a m ++ consecInts (a + m) n = consecInts a (m + n) := by
  simp only [consecInts, List.range_add, List.map_append, List.map_map]
  congr 1
  apply List.map_congr_left
  intro i _
  simp
  ring

theorem consecInts_getLast (a : ℤ) (n : ℕ) (hn : n ≠ 0) :
    (consecInts a n).getLast? = some (a + n - 1) := by
  obtain ⟨m, rfl⟩ := Nat.exists_eq_succ_of_ne_zero hn
  have : consecInts a (m + 1) = consecInts a m ++ [a + m] := by
    simp [consecInts, List.range_succ]
  rw [this, List.getLast?_concat]
  push_cast
  ring_nf

theorem consecInts_nodup (a : ℤ) (n : ℕ) : (consecInts a n).Nodup := by
  refine List.Nodup.map ?_ (List.nodup_range n)
  intro i j h
  have : (i : ℤ) = j := by linarith [add_left_cancel h]
  exact_mod_cast this

/-- Sanity: at the source's hard-coded counts the parametric builder
produces exactly the concrete lists the constraint groups index with. -/
theorem buildIndices_at_source_counts :
    buildIndices 3 3 3 = some ([0, 1, 2], [3, 4, 5], [6, 7, 8], [0, 1, 2]) := by
  decide

theorem iclimb1_eq : iclimb1 = [0, 1, 2] := by decide

theorem iclimb2_eq : iclimb2 = [3, 4, 5] := by decide

theorem icruise2_eq : icruise2 = [6, 7, 8] := by decide

theorem izbre_eq : izbre = [0, 1, 2] := by decide

theorem Nseg_eq : Nseg = 9 := rfl

theorem Nclimb_eq : Nclimb = 6 := rfl

theorem Ncruise2_eq : Ncruise2 = 3 := rfl

theorem Ncruise_len_eq : Ncruise2 + Ncruise1 = 3 := rfl

theorem te_exp_minus1_three (x : ℝ) :
    te_exp_minus1 x 3 = x + x ^ 2 / 2 + x ^ 3 / 6 := by
  simp [te_exp_minus1, Finset.sum_range_succ, Nat.factorial]
  norm_num

theorem s0_pos : posVars s0 := by
  unfold posVars
  refine ⟨fun i hi => Real.sqrt_pos.mpr (by norm_num [gamma, R]), ?_⟩
  and_intros
  all_goals first
    | (intro i hi
       simp only [s0]
       first
         | (split_ifs <;> norm_num)
         | norm_num)
    | (simp only [s0]; norm_num)

theorem s0_cmc : commericalMissionConstraints s0 := by
  unfold commericalMissionConstraints
  refine ⟨fun i hi => rfl, fun i hi => rfl, fun i hi => rfl,
    ?_, ?_, ?_, ?_, ?_, ?_, ?_, ?_, ?_, ?_⟩
  · norm_num [s0]
  · norm_num [s0]
  · norm_num [s0, Nseg_eq]
  · rw [Nseg_eq]
    norm_num [Finset.sum_range_succ, s0]
  · norm_num [s0, Ntakeoff, Nclimb1, alt10k]
  · rw [Nclimb_eq, Ncruise_len_eq]
    norm_num [Finset.sum_range_succ, s0, ReqRng]
  · rw [Ncruise_len_eq]
    norm_num [Finset.sum_range_succ, s0]
  · intro k hk
    rw [icruise2_eq] at hk
    simp only [List.mem_cons, List.not_mem_nil, or_false] at hk
    rcases hk with rfl | rfl | rfl
    · norm_num [s0, Nclimb_eq]
    · norm_num [s0, Nclimb_eq]
    · norm_num [s0, Nclimb_eq]
  · intro i h1 h9
    rw [Nseg_eq] at h9
    interval_cases i <;> norm_num [s0]
  · intro i hi
    rw [Nseg_eq] at hi
    interval_cases i <;> norm_num [s0]

theorem s0_cruise2 : cruise2Constraints s0 := by
  unfold cruise2Constraints
  refine ⟨?_, ?_, ?_, ?_, ?_, ?_, ?_, ?_, ?_, ?_, ?_, ?_, ?_, ?_, fun i hi => rfl⟩
  · intro k hk
    rw [icruise2_eq] at hk
    simp only [List.mem_cons, List.not_mem_nil, or_false] at hk
    rcases hk with rfl | rfl | rfl
    · norm_num [s0]
    · norm_num [s0]
    · norm_num [s0]
  · intro k hk
    rw [Ncruise2_eq] at hk
    interval_cases k <;>
      (rw [te_exp_minus1_three]; norm_num [s0, Nclimb1, Nclimb2])
  · intro k hk
    rw [Ncruise2_eq] at hk
    interval_cases k <;> norm_num [s0, Nclimb1, Nclimb2, g]
  · intro k hk
    rw [Ncruise2_eq] at hk
    interval_cases k <;> norm_num [s0, Nclimb1, Nclimb2]
  · intro i hi
    rw [Ncruise2_eq] at hi
    interval_cases i <;> norm_num [s0, Nseg_eq]
  · intro k hk
    rw [icruise2_eq] at hk
    simp only [List.mem_cons, List.not_mem_nil, or_false] at hk
    rcases hk with rfl | rfl | rfl
    · norm_num [s0]
    · norm_num [s0]
    · norm_num [s0]
  · intro k hk
    rw [icruise2_eq] at hk
    simp only [List.mem_cons, List.not_mem_nil, or_false] at hk
    rcases hk with rfl | rfl | rfl
    · norm_num [s0]
    · norm_num [s0]
    · norm_num [s0]
  · intro k hk
    rw [icruise2_eq] at hk
    simp only [List.mem_cons, List.not_mem_nil, or_false] at hk
    rcases hk with rfl | rfl | rfl
    · norm_num [s0]
    · norm_num [s0]
    · norm_num [s0]
  · intro k hk
    rw [iclimb2_eq] at hk
    simp only [List.mem_cons, List.not_mem_nil, or_false] at hk
    rcases hk with rfl | rfl | rfl
    · norm_num [s0, c1]
    · norm_num [s0, c1]
    · norm_num [s0, c1]
  · intro k hk
    rw [iclimb2_eq] at hk
    simp only [List.mem_cons, List.not_mem_nil, or_false] at hk
    rcases hk with rfl | rfl | rfl
    · norm_num [s0]
    · norm_num [s0]
    · norm_num [s0]
  · intro k hk
    rw [iclimb1_eq] at hk
    simp only [List.mem_cons, List.not_mem_nil, or_false] at hk
    rcases hk with rfl | rfl | rfl
    · norm_num [s0, c1]
    · norm_num [s0, c1]
    · norm_num [s0, c1]
  · intro k hk
    rw [iclimb1_eq] at hk
    simp only [List.mem_cons, List.not_mem_nil, or_false] at hk
    rcases hk with rfl | rfl | rfl
    · norm_num [s0]
    · norm_num [s0]
    · norm_num [s0]
  · norm_num [s0]
  · norm_num [s0]

theorem s1_climb1 : climb1Constraints s1 := by
  unfold climb1Constraints
  refine ⟨fun i _ => ?_, fun i _ => ?_, fun i _ => ?_, fun i _ => ?_,
    fun i _ => ?_, fun i _ => ?_, fun i _ => ?_, ?_, fun i _ _ => ?_⟩
  · norm_num [s1, climbspeed]
  · norm_num [s1, Vstall]
  · norm_num [s1, S, Cd0, K, thrust]
  · norm_num [s1]
  · norm_num [s1]
  · norm_num [s1]
  · norm_num [s1, g, thrust]
  · norm_num [s1]
  · norm_num [s1]

theorem s1_climb2 : climb2Constraints s1 := by
  unfold climb2Constraints
  refine ⟨fun i _ => ?_, fun i _ => ?_, fun i _ => ?_, fun i _ => ?_,
    fun i _ => ?_, fun i _ => ?_, fun i _ => ?_⟩
  · norm_num [s1]
  · norm_num [s1, Vstall]
  · norm_num [s1, S, Cd0, K, thrust]
  · norm_num [s1]
  · norm_num [s1]
  · norm_num [s1]
  · norm_num [s1, g, thrust]

/-! ### Claims C3 and C4: the index-building computation -/

/-- C3 counterexample: with the non-negative counts `Nclimb1 = 0`,
`Nclimb2 = 3`, `Ncruise2 = 3`, the index-building computation does not
produce index ranges at all: `iclimb1` is empty, so line 49's
`iclimb1[len(iclimb1)-1]` raises `IndexError` (here: `none`) instead of
yielding an empty range for the zero-count phase and ranges for the
rest. -/
theorem C3_counterexample_zero_count : buildIndices 0 3 3 = none := by decide

/-- C3 (amended): for strictly positive `Nclimb1` and `Nclimb2` and
non-negative `Ncruise2`, the index builder succeeds and produces the three
consecutive ranges `[0, n1)`, `[n1, n1+n2)`, `[n1+n2, n1+n2+n3)` in the
fixed phase order; their concatenation is exactly the consecutive range
`[0, n1+n2+n3)` (hence contiguous, ordered, pairwise disjoint with no
duplicates), each range's length is its phase's count, and a zero cruise
count yields an empty cruise range. -/
theorem C3_index_ranges (n1 n2 n3 : ℤ) (h1 : 1 ≤ n1) (h2 : 1 ≤ n2) (h3 : 0 ≤ n3) :
    buildIndices n1 n2 n3 =
      some (consecInts 0 n1.toNat, consecInts n1 n2.toNat,
            consecInts (n1 + n2) n3.toNat, consecInts 0 n3.toNat) ∧
    (consecInts 0 n1.toNat ++ consecInts n1 n2.toNat ++ consecInts (n1 + n2) n3.toNat)
      = consecInts 0 (n1.toNat + n2.toNat + n3.toNat) ∧
    (consecInts 0 n1.toNat ++ consecInts n1 n2.toNat
      ++ consecInts (n1 + n2) n3.toNat).Nodup ∧
    (consecInts 0 n1.toNat).length = n1.toNat ∧
    (consecInts n1 n2.toNat).length = n2.toNat ∧
    (consecInts (n1 + n2) n3.toNat).length = n3.toNat ∧
    (n3 = 0 → consecInts (n1 + n2) n3.toNat = []) := by
  have hn1 : ¬ n1 < 0 := by omega
  have hn2 : ¬ n2 < 0 := by omega
  have hn3 : ¬ n3 < 0 := by omega
  have h1n : n1.toNat ≠ 0 := by omega
  have h2n : n2.toNat ≠ 0 := by omega
  have e1 : linspaceInts 0 n1 = some (consecInts 0 n1.toNat) := by
    simp [linspaceInts, hn1]
  have e2 : pyLast (consecInts 0 n1.toNat) = some (n1 - 1) := by
    rw [pyLast, consecInts_getLast 0 n1.toNat h1n]
    congr 1
    omega
  have e3 : linspaceInts (n1 - 1 + 1) n2 = some (consecInts n1 n2.toNat) := by
    have : n1 - 1 + 1 = n1 := by ring
    rw [this]
    simp [linspaceInts, hn2]
  have e4 : pyLast (consecInts n1 n2.toNat) = some (n1 + n2 - 1) := by
    rw [pyLast, consecInts_getLast n1 n2.toNat h2n]
    congr 1
    omega
  have e5 : linspaceInts (n1 + n2 - 1 + 1) n3 = some (consecInts (n1 + n2) n3.toNat) := by
    have : n1 + n2 - 1 + 1 = n1 + n2 := by ring
    rw [this]
    simp [linspaceInts, hn3]
  have e6 : linspaceInts 0 n3 = some (consecInts 0 n3.toNat) := by
    simp [linspaceInts, hn3]
  have hcat : (consecInts 0 n1.toNat ++ consecInts n1 n2.toNat
      ++ consecInts (n1 + n2) n3.toNat)
      = consecInts 0 (n1.toNat + n2.toNat + n3.toNat) := by
    have m1 : consecInts n1 n2.toNat = consecInts ((0 : ℤ) + n1.toNat) n2.toNat := by
      congr 1
      omega
    have m2 : consecInts (n1 + n2) n3.toNat
        = consecInts ((0 : ℤ) + (n1.toNat + n2.toNat : ℕ)) n3.toNat := by
      congr 1
      push_cast
      omega
    rw [m1, consecInts_append 0 n1.toNat n2.toNat, m2,
      consecInts_append 0 (n1.toNat + n2.toNat) n3.toNat]
  refine ⟨?_, hcat, ?_, consecInts_length _ _, consecInts_length _ _,
    consecInts_length _ _, ?_⟩
  · unfold buildIndices
    rw [e1]
    simp only [Option.bind_eq_bind, Option.some_bind]
    rw [e2]
    simp only [Option.some_bind]
    rw [e3]
    simp only [Option.some_bind]
    rw [e4]
    simp only [Option.some_bind]
    rw [e5]
    simp only [Option.some_bind]
    rw [e6]
    simp only [Option.some_bind]
    rfl
  · rw [hcat]
    exact consecInts_nodup _ _
  · intro h0
    simp [h0, consecInts]

/-- C3 witness: the amended statement instantiated at the source's own
counts (3, 3, 3). -/
theorem C3_index_ranges_witness :
    (1 : ℤ) ≤ 3 ∧
    (buildIndices 3 3 3 =
      some (consecInts 0 (3 : ℤ).toNat, consecInts 3 (3 : ℤ).toNat,
            consecInts (3 + 3) (3 : ℤ).toNat, consecInts 0 (3 : ℤ).toNat) ∧
    (consecInts 0 (3 : ℤ).toNat ++ consecInts 3 (3 : ℤ).toNat
      ++ consecInts (3 + 3) (3 : ℤ).toNat)
      = consecInts 0 ((3 : ℤ).toNat + (3 : ℤ).toNat + (3 : ℤ).toNat) ∧
    (consecInts 0 (3 : ℤ).toNat ++ consecInts 3 (3 : ℤ).toNat
      ++ consecInts (3 + 3) (3 : ℤ).toNat).Nodup ∧
    (consecInts 0 (3 : ℤ).toNat).length = (3 : ℤ).toNat ∧
    (consecInts 3 (3 : ℤ).toNat).length = (3 : ℤ).toNat ∧
    (consecInts (3 + 3) (3 : ℤ).toNat).length = (3 : ℤ).toNat ∧
    ((3 : ℤ) = 0 → consecInts (3 + 3) (3 : ℤ).toNat = [])) :=
  ⟨by norm_num, C3_index_ranges 3 3 3 (by norm_num) (by norm_num) (by norm_num)⟩

/-- C4: if any of the three active phase segment counts is negative, the
index construction at source lines 48-52 fails (numpy's `linspace` raises
`ValueError` for a negative sample count) at module-evaluation time, i.e.
while the model is being constructed and before any solve is attempted. -/
theorem C4_negative_count_fails (n1 n2 n3 : ℤ)
    (h : n1 < 0 ∨ n2 < 0 ∨ n3 < 0) : buildIndices n1 n2 n3 = none := by
  unfold buildIndices
  rcases h with h1 | h2 | h3
  · rw [show linspaceInts 0 n1 = none from by simp [linspaceInts, h1]]
    rfl
  · by_cases h1 : n1 < 0
    · rw [show linspaceInts 0 n1 = none from by simp [linspaceInts, h1]]
      rfl
    · rw [show linspaceInts 0 n1 = some (consecInts 0 n1.toNat) from by
        simp [linspaceInts, h1]]
      simp only [Option.bind_eq_bind, Option.some_bind]
      by_cases h1z : n1.toNat = 0
      · rw [show pyLast (consecInts 0 n1.toNat) = none from by
          simp [pyLast, h1z, consecInts]]
        rfl
      · rw [show pyLast (consecInts 0 n1.toNat)
            = some (0 + (n1.toNat : ℤ) - 1) from consecInts_getLast 0 n1.toNat h1z]
        simp only [Option.some_bind]
        rw [show linspaceInts (0 + (n1.toNat : ℤ) - 1 + 1) n2 = none from by
          simp [linspaceInts, h2]]
        rfl
  · by_cases h1 : n1 < 0
    · rw [show linspaceInts 0 n1 = none from by simp [linspaceInts, h1]]
      rfl
    · rw [show linspaceInts 0 n1 = some (consecInts 0 n1.toNat) from by
        simp [linspaceInts, h1]]
      simp only [Option.bind_eq_bind, Option.some_bind]
      by_cases h1z : n1.toNat = 0
      · rw [show pyLast (consecInts 0 n1.toNat) = none from by
          simp [pyLast, h1z, consecInts]]
        rfl
      · rw [show pyLast (consecInts 0 n1.toNat)
            = some (0 + (n1.toNat : ℤ) - 1) from consecInts_getLast 0 n1.toNat h1z]
        simp only [Option.some_bind]
        by_cases h2' : n2 < 0
        · rw [show linspaceInts (0 + (n1.toNat : ℤ) - 1 + 1) n2 = none from by
            simp [linspaceInts, h2']]
          rfl
        · rw [show linspaceInts (0 + (n1.toNat : ℤ) - 1 + 1) n2
              = some (consecInts (0 + (n1.toNat : ℤ) - 1 + 1) n2.toNat) from by
            simp [linspaceInts, h2']]
          simp only [Option.some_bind]
          by_cases h2z : n2.toNat = 0
          · rw [show pyLast (consecInts (0 + (n1.toNat : ℤ) - 1 + 1) n2.toNat)
                = none from by simp [pyLast, h2z, consecInts]]
            rfl
          · rw [show pyLast (consecInts (0 + (n1.toNat : ℤ) - 1 + 1) n2.toNat)
                = some (0 + (n1.toNat : ℤ) - 1 + 1 + (n2.toNat : ℤ) - 1) from
              consecInts_getLast _ n2.toNat h2z]
            simp only [Option.some_bind]
            rw [show linspaceInts (0 + (n1.toNat : ℤ) - 1 + 1 + (n2.toNat : ℤ) - 1 + 1) n3
                = none from by simp [linspaceInts, h3]]
            rfl

/-- C4 witness: a concrete negative count (`Nclimb1 = -1`) makes the
construction fail. -/
theorem C4_negative_count_fails_witness :
    ((-1 : ℤ) < 0 ∨ (3 : ℤ) < 0 ∨ (3 : ℤ) < 0) ∧ buildIndices (-1) 3 3 = none :=
  ⟨Or.inl (by norm_num),
    C4_negative_count_fails (-1) 3 3 (Or.inl (by norm_num))⟩

/-! ### Claim C8: `poor_mans_contour` -/

/-- C8: whenever both sweep variables are present in the substitution
mapping before the call, `poor_mans_contour` returns normally and the final
mapping holds the pre-call value for both the x-sweep and the z-sweep
variable (sweep-then-restore is the identity on those entries). -/
theorem C8_poor_mans_contour_roundtrip (subs : String → Option SubVal)
    (xvarname zvarname : String) (xsweep zsweep : List ℚ)
    (x_old z_old : SubVal)
    (hx : subs xvarname = some x_old) (hz : subs zvarname = some z_old) :
    ∃ r, poor_mans_contour subs xvarname xsweep zvarname zsweep = some r ∧
      r xvarname = some x_old ∧ r zvarname = some z_old := by
  have hres : poor_mans_contour subs xvarname xsweep zvarname zsweep
      = some (dictUpdate (dictUpdate
          (zsweep.foldl (fun s val => dictUpdate s zvarname (SubVal.scalar val))
            (dictUpdate subs xvarname (SubVal.sweepSeq xsweep)))
          xvarname x_old) zvarname z_old) := by
    unfold poor_mans_contour
    rw [hx, hz]
  refine ⟨_, hres, ?_, ?_⟩
  · by_cases hxz : xvarname = zvarname
    · have hxx : x_old = z_old := by
        rw [hxz] at hx
        rw [hx] at hz
        exact Option.some.inj hz
      simp [dictUpdate, hxz, hxx]
    · simp [dictUpdate, hxz]
  · simp [dictUpdate]

/-- C8 witness: a concrete two-entry substitution dictionary swept over a
concrete value list comes back with both original entries intact. -/
theorem C8_poor_mans_contour_roundtrip_witness :
    (fun k => if k = "x" then some (SubVal.scalar 1)
      else if k = "z" then some (SubVal.scalar 2) else none) ("x")
        = some (SubVal.scalar 1) ∧
    (fun k => if k = "x" then some (SubVal.scalar 1)
      else if k = "z" then some (SubVal.scalar 2) else none) ("z")
        = some (SubVal.scalar 2) ∧
    ∃ r, poor_mans_contour
        (fun k => if k = "x" then some (SubVal.scalar 1)
          else if k = "z" then some (SubVal.scalar 2) else none)
        ("x") [3, 4] ("z") [5, 6] = some r ∧
      r ("x") = some (SubVal.scalar 1) ∧ r ("z") = some (SubVal.scalar 2) :=
  ⟨by simp, by simp,
    C8_poor_mans_contour_roundtrip _ ("x") ("z") [3, 4] [5, 6]
      (SubVal.scalar 1) (SubVal.scalar 2) (by simp) (by simp)⟩

/-! ### Claims about the mission model

Each claim is settled against the constraint group(s) that contain the
relevant constraints (plus positivity of the decision variables where the
claim needs it); a feasible solution of the linked mission model satisfies
every group's constraints, so each theorem covers in particular every
feasible solution of the linked model. -/

/-- C1: any positive assignment satisfying the `Cruise2` group (hence any
feasible solution of the linked mission model) has, for every cruise
segment `k`, cumulative cruise range through segment `k` of at least
`(k+1) * ReqRngCruise / Nseg`: the staged constraint at source line 296
bounds segment `k`'s own range by that share, and the preceding segments
contribute positively. -/
theorem C1_cumulative_cruise_range (s : MissionVars) (hpos : posVars s)
    (hc : cruise2Constraints s) :
    ∀ k < Ncruise2, ((k : ℝ) + 1) * s.ReqRngCruise / (Nseg : ℝ)
      ≤ ∑ i ∈ Finset.range (k + 1), s.RngCruise i := by
  intro k hk
  obtain ⟨-, -, -, -, hstaged, -⟩ := hc
  obtain ⟨-, -, -, -, -, -, -, -, -, -, hrng, -⟩ := hpos
  have hsk := hstaged k hk
  have hle : s.RngCruise k ≤ ∑ i ∈ Finset.range (k + 1), s.RngCruise i := by
    refine Finset.single_le_sum (fun i hi => ?_) (Finset.self_mem_range_succ k)
    have hi3 : i < Ncruise2 + Ncruise1 := by
      rw [Ncruise_len_eq]
      rw [Ncruise2_eq] at hk
      have := Finset.mem_range.mp hi
      omega
    exact (hrng i hi3).le
  exact le_trans hsk hle

/-- C1 witness: the staged cumulative bound evaluated at a concrete
positive cruise assignment. -/
theorem C1_cumulative_cruise_range_witness :
    posVars s0 ∧ cruise2Constraints s0 ∧
    (∀ k < Ncruise2, ((k : ℝ) + 1) * s0.ReqRngCruise / (Nseg : ℝ)
      ≤ ∑ i ∈ Finset.range (k + 1), s0.RngCruise i) :=
  ⟨s0_pos, s0_cruise2, C1_cumulative_cruise_range s0 s0_pos s0_cruise2⟩

/-- C2: the mission-wide group's loop at source lines 164-167 is the exact
equality `W_start[i] == W_end[i-1]` for every `0 < i < Nseg` (not a `TCS`
relaxation), so any assignment satisfying the group — in particular any
feasible solution of the linked model — has exact segment-to-segment
weight continuity. -/
theorem C2_weight_continuity (s : MissionVars)
    (h : commericalMissionConstraints s) :
    ∀ i, 1 ≤ i → i < Nseg → s.W_start i = s.W_end (i - 1) := by
  obtain ⟨-, -, -, -, -, -, -, -, -, -, -, hcont, -⟩ := h
  exact hcont

/-- C2 witness: weight continuity evaluated at a concrete assignment
satisfying the mission-wide group. -/
theorem C2_weight_continuity_witness :
    commericalMissionConstraints s0 ∧
    (∀ i, 1 ≤ i → i < Nseg → s0.W_start i = s0.W_end (i - 1)) :=
  ⟨s0_cmc, C2_weight_continuity s0 s0_cmc⟩

/-- C5: the `Cruise2` group bounds each cruise segment's fuel-to-end-weight
ratio below by the third-order truncated series `z + z^2/2 + z^3/6` of
`exp(z)-1` (source line 284) and bounds the segment's range above by
`z_bre * (L/D) * V / (TSFC * g)` (source line 287). -/
theorem C5_breguet_constraints (s : MissionVars) (hc : cruise2Constraints s) :
    ∀ k < Ncruise2,
      s.W_fuel (Nclimb1 + Nclimb2 + k) / s.W_end (Nclimb1 + Nclimb2 + k)
        ≥ s.z_bre k + (s.z_bre k) ^ 2 / 2 + (s.z_bre k) ^ 3 / 6 ∧
      s.RngCruise k ≤ s.z_bre k * s.LD (Nclimb1 + Nclimb2 + k)
        * s.V (Nclimb1 + Nclimb2 + k) / (s.TSFC (Nclimb1 + Nclimb2 + k) * g) := by
  intro k hk
  obtain ⟨-, hbre, hrng, -⟩ := hc
  refine ⟨?_, hrng k hk⟩
  have := hbre k hk
  rwa [te_exp_minus1_three] at this

/-- C5 witness: the Breguet constraints evaluated at a concrete cruise
assignment. -/
theorem C5_breguet_constraints_witness :
    cruise2Constraints s0 ∧
    (∀ k < Ncruise2,
      s0.W_fuel (Nclimb1 + Nclimb2 + k) / s0.W_end (Nclimb1 + Nclimb2 + k)
        ≥ s0.z_bre k + (s0.z_bre k) ^ 2 / 2 + (s0.z_bre k) ^ 3 / 6 ∧
      s0.RngCruise k ≤ s0.z_bre k * s0.LD (Nclimb1 + Nclimb2 + k)
        * s0.V (Nclimb1 + Nclimb2 + k) / (s0.TSFC (Nclimb1 + Nclimb2 + k) * g)) :=
  ⟨s0_cruise2, C5_breguet_constraints s0 s0_cruise2⟩

/-- C6: the mission-wide group pins the final climb-phase-1 segment's
altitude to exactly 10,000 ft (source line 153, `alt10k`) and equates every
cruise-phase-2 segment's altitude with the final climb segment's
(index `Nclimb - 1`, source line 160). -/
theorem C6_altitude_continuity (s : MissionVars)
    (h : commericalMissionConstraints s) :
    s.hft (Ntakeoff + Nclimb1 - 1) = 10000 ∧
    (∀ k ∈ icruise2, s.hft k = s.hft (Nclimb - 1)) := by
  obtain ⟨-, -, -, -, -, -, -, halt, -, -, hmatch, -⟩ := h
  refine ⟨?_, hmatch⟩
  rw [halt]
  norm_num [alt10k]

/-- C6 witness: the altitude constraints evaluated at a concrete
mission-wide assignment. -/
theorem C6_altitude_continuity_witness :
    commericalMissionConstraints s0 ∧
    (s0.hft (Ntakeoff + Nclimb1 - 1) = 10000 ∧
    (∀ k ∈ icruise2, s0.hft k = s0.hft (Nclimb - 1))) :=
  ⟨s0_cmc, C6_altitude_continuity s0 s0_cmc⟩

/-- C7: both climb groups contain, for each of their segments, the
two-term cosine-correction range constraint
`RngClimb + 0.5 * thours * V * theta^2 <= thours * V` (source lines 205 and
253) together with the small-angle relation `theta * V == RC` (source lines
199 and 247). -/
theorem C7_climb_range_cosine (s : MissionVars)
    (h1 : climb1Constraints s) (h2 : climb2Constraints s) :
    ∀ i, i ∈ iclimb1 ∨ i ∈ iclimb2 →
      (s.RngClimb i + 0.5 * s.thours i * s.V i * (s.theta i) ^ 2
        ≤ s.thours i * s.V i) ∧ s.theta i * s.V i = s.RC i := by
  intro i hi
  obtain ⟨-, -, -, hth1, -, hrng1, -⟩ := h1
  obtain ⟨-, -, -, hth2, -, hrng2, -⟩ := h2
  rcases hi with hi | hi
  · exact ⟨hrng1 i hi, hth1 i hi⟩
  · exact ⟨hrng2 i hi, hth2 i hi⟩

/-- C7 witness: the climb range and climb angle constraints evaluated at a
concrete assignment satisfying both climb groups. -/
theorem C7_climb_range_cosine_witness :
    climb1Constraints s1 ∧ climb2Constraints s1 ∧
    (∀ i, i ∈ iclimb1 ∨ i ∈ iclimb2 →
      (s1.RngClimb i + 0.5 * s1.thours i * s1.V i * (s1.theta i) ^ 2
        ≤ s1.thours i * s1.V i) ∧ s1.theta i * s1.V i = s1.RC i) :=
  ⟨s1_climb1, s1_climb2, C7_climb_range_cosine s1 s1_climb1 s1_climb2⟩

/-- C9: combining `Cruise2`'s fixed cruise altitude (source line 281) with
the mission-wide altitude-matching constraint (source line 160), every
assignment satisfying both groups — in particular every feasible solution
of the linked model — has all cruise-phase-2 altitudes and the final climb
segment's altitude equal to exactly 35,000 ft. -/
theorem C9_cruise_altitude_pinned (s : MissionVars)
    (hm : commericalMissionConstraints s) (hc : cruise2Constraints s) :
    (∀ k ∈ icruise2, s.hft k = 35000) ∧ s.hft (Nclimb - 1) = 35000 := by
  obtain ⟨h35, -⟩ := hc
  obtain ⟨-, -, -, -, -, -, -, -, -, -, hmatch, -⟩ := hm
  refine ⟨h35, ?_⟩
  have h6 : (6 : ℕ) ∈ icruise2 := by decide
  have hm6 := hmatch 6 h6
  rw [← hm6]
  exact h35 6 h6

/-- C9 witness: the pinned 35,000 ft altitudes evaluated at a concrete
assignment satisfying both groups. -/
theorem C9_cruise_altitude_pinned_witness :
    commericalMissionConstraints s0 ∧ cruise2Constraints s0 ∧
    ((∀ k ∈ icruise2, s0.hft k = 35000) ∧ s0.hft (Nclimb - 1) = 35000) :=
  ⟨s0_cmc, s0_cruise2, C9_cruise_altitude_pinned s0 s0_cmc s0_cruise2⟩

/-- C10: `izbre` coincides with `iclimb1` — the Breguet-parameter slots the
cruise constraints index are the global slots of climb phase 1 — every
index in `izbre` is below `Ncruise2`, and the linked constraint system
never reads `z_bre` at any index `>= Ncruise2`: replacing those entries by
anything leaves satisfaction of the linked constraints unchanged (`z_bre`
is declared with length `Nseg = 9`, so entries 3 through 8 are
unconstrained). -/
theorem C10_zbre_tail_unused :
    izbre = iclimb1 ∧ (∀ j ∈ izbre, j < Ncruise2) ∧
    (∀ (s : MissionVars) (f : ℕ → ℝ), (∀ j < Ncruise2, f j = s.z_bre j) →
      (linkedConstraints { s with z_bre := f } ↔ linkedConstraints s)) := by
  refine ⟨by decide, by decide, ?_⟩
  intro s f hf
  obtain ⟨av, rhov, muv, Tv, hftv, dhftv, hv, tminv, thoursv, RngClimbv,
    RngCruisev, RRCv, Wev, Wstv, Wfuv, Wftv, Wenv, Wplv, Wttv, LDv, Vv, Mv,
    RCv, thetav, zbv, TSv⟩ := s
  dsimp only at hf ⊢
  unfold linkedConstraints
  refine and_congr Iff.rfl (and_congr Iff.rfl (and_congr Iff.rfl ?_))
  unfold cruise2Constraints
  dsimp only
  refine and_congr Iff.rfl (and_congr ?_ (and_congr ?_ Iff.rfl))
  · exact forall_congr' fun k => imp_congr_right fun hk => by rw [hf k hk]
  · exact forall_congr' fun k => imp_congr_right fun hk => by rw [hf k hk]

/-- C10 witness: changing `z_bre` at index 5 only (a slot at or above
`Ncruise2`) does not change satisfaction of the linked constraints at a
concrete assignment. -/
theorem C10_zbre_tail_unused_witness :
    (∀ j < Ncruise2, (fun j => if j < Ncruise2 then s0.z_bre j else (42 : ℝ)) j
      = s0.z_bre j) ∧
    (linkedConstraints
        { s0 with z_bre := fun j => if j < Ncruise2 then s0.z_bre j else (42 : ℝ) }
      ↔ linkedConstraints s0) :=
  ⟨fun j hj => by simp [hj],
    C10_zbre_tail_unused.2.2 s0
      (fun j => if j < Ncruise2 then s0.z_bre j else (42 : ℝ))
      (fun j hj => by simp [hj])⟩

end GPM
